import Mathlib

/-!
Verification of the ncm-R omnils core (`pythonx/omnils.py`).

The module converts delimiter-encoded omnils lines describing R symbols into
completion matches.  Python strings are modelled as lists of characters;
each Python function or method is translated into a pure Lean function.
Code that can raise (the `self.args[0]` access in `Function._make_snippet`)
is modelled with `Option`: `none` means an exception propagates.
-/

/-- Python strings, modelled as lists of characters. -/
abbrev Str := List Char

/-- Build a `Str` from a Lean string literal. -/
def str (s : String) : Str := s.toList

/-- Characters removed by Python `str.strip()` (the common ASCII whitespace;
rarer Unicode whitespace characters are not modelled). -/
def pyWs (c : Char) : Bool :=
  c == ' ' || c == '\t' || c == '\n' || c == '\r' || c == '\x0b' || c == '\x0c'

/-- Python `s.strip()`. -/
def pyStrip (s : Str) : Str :=
  ((s.dropWhile pyWs).reverse.dropWhile pyWs).reverse

/-- Python `re.split(c, s)` for a single ordinary character `c` (identical to
`s.split(c)`): all fields are kept, including empty ones; splitting the empty
string yields `['']`. -/
def pySplit (sep : Char) : Str → List Str
  | [] => [[]]
  | c :: cs =>
    let r := pySplit sep cs
    if c = sep then [] :: r
    else
      match r with
      | [] => [[c]]
      | h :: t => (c :: h) :: t

/-- Python `s[0:n]` for `n ≥ 0`. -/
def pyTake (n : Nat) (s : Str) : Str := s.take n

/-- Python `s[:-n]` for `n ≥ 0`. -/
def pyDropRight (n : Nat) (s : Str) : Str := s.take (s.length - n)

/-- Python `s.replace(c, r)` for a single-character pattern `c`. -/
def pyReplaceChar (c : Char) (r : Str) : Str → Str
  | [] => []
  | x :: xs => (if x = c then r else [x]) ++ pyReplaceChar c r xs

/-- Python `a in b` for strings: substring test. -/
def isSubOf (a : Str) : Str → Bool
  | [] => a.isEmpty
  | c :: cs => a.isPrefixOf (c :: cs) || isSubOf a cs

/-- Python `c in s` for a single character `c`. -/
def pyContains (c : Char) (s : Str) : Bool := s.contains c

/-- Python `'\x7b:N\x7d'.format(s)`: left-justify `s` in a field of width `w`
by appending spaces; text longer than `w` is kept whole (never truncated). -/
def pad (s : Str) (w : Nat) : Str := s ++ List.replicate (w - s.length) ' '

/-- Python `str(n)` for a natural number. -/
def natDigits (n : Nat) : Str := Nat.toDigits 10 n

/-- The characters strictly before the last occurrence of `c`, when `c`
occurs in the list. -/
def beforeLast (c : Char) : Str → Option Str
  | [] => none
  | x :: xs =>
    match beforeLast c xs with
    | some ys => some (x :: ys)
    | none => if x = c then some [] else none

/-- Model of `re.search('\x08(.*)\x05', s)`, returning group 1: the match must
start at a `'\x08'`; `.*` is greedy and cannot cross a newline, so group 1 runs
from just after the first `'\x08'` that is followed (before any newline) by a
`'\x05'`, up to the last such `'\x05'`. -/
def titleSearch : Str → Option Str
  | [] => none
  | x :: xs =>
    if x = '\x08' then
      match beforeLast '\x05' (xs.takeWhile (fun c => !(c == '\n'))) with
      | some t => some t
      | none => titleSearch xs
    else titleSearch xs

/-- Title derivation in `Match.build`: when `info` is non-empty and the
documentation-title pattern matches, the stripped group; otherwise empty
(the dict then simply has no `title` key, and `title = ''` is used). -/
def getTitle (info : Str) : Str :=
  if info = [] then []
  else
    match titleSearch info with
    | some t => pyStrip t
    | none => []

/-- `Function._get_args`: empty info leaves the argument list empty; otherwise
keep the segment before the first `'\x08'` (if any), split it on tabs and
replace each `'\x07'` by `" = "`. -/
def getArgs (info : Str) : List Str :=
  if info = [] then []
  else
    let a := if pyContains '\x08' info then (pySplit '\x08' info).headD [] else info
    (pySplit '\t' a).map (pyReplaceChar '\x07' (str " = "))

/-- The `'${i:tok}'` placeholder for the enumerated mandatory token `p`. -/
def phCore (p : Nat × Str) : Str :=
  str "$\x7b" ++ natDigits (p.1 + 1) ++ str ":" ++ p.2 ++ str "\x7d"

/-- One `'${i:tok}, '` snippet piece for the enumerated mandatory token `p`. -/
def phPiece (p : Nat × Str) : Str :=
  phCore p ++ str ", "

/-- The skip test of `Function._make_snippet`: `arg in ('...') and numarg > 0`.
`('...')` is the plain string `"..."`, so `in` is a substring test. -/
def skipTok (p : Nat × Str) : Bool :=
  isSubOf p.2 (str "...") && decide (0 < p.1)

/-- `Function._make_snippet`.  `none` models the `IndexError` raised by the
`self.args[0]` access when the argument list is empty (empty info). -/
def makeSnippet (word : Str) (args : List Str) : Option Str :=
  match args.head? with
  | none => none
  | some a0 =>
    if a0 = str "NO_ARGS" then some (word ++ str "()")
    else
      let mand := args.filter (fun a => !pyContains '=' a)
      let body := mand.enum.foldl
        (fun s p => if skipTok p then s else s ++ phPiece p) (word ++ str "(")
      some (if 1 ≤ mand.length then pyDropRight 2 body ++ str ")"
            else body ++ str "$1" ++ str ")")

/-- `Match.MIN_LEN['col1']`. -/
def minCol1 : Nat := 7

/-- `Match.MIN_LEN['col2']`. -/
def minCol2 : Nat := 7

/-- The column-width state of a `Match` object (`self.len`). -/
structure MatchConfig where
  col1 : Nat
  col2 : Nat
deriving DecidableEq, Repr

/-- `Match.__init__`: both widths start at 11. -/
def defaultConfig : MatchConfig := ⟨11, 11⟩

/-- `Match.setup`: overwrite both widths from the settings. -/
def setup (_cfg : MatchConfig) (c1Len c2Len : Nat) : MatchConfig :=
  ⟨c1Len, c2Len⟩

/-- `Match._col`: empty below the minimum width; otherwise the value truncated
to `width - 1` characters, or `width - 3` inside literal braces. -/
def col (cfg : MatchConfig) (value : Str) (colNb : Nat) (brackets : Bool) : Str :=
  let w := if colNb = 1 then cfg.col1 else cfg.col2
  let mn := if colNb = 1 then minCol1 else minCol2
  if w < mn then []
  else if brackets then str "\x7b" ++ pyTake (w - 3) value ++ str "\x7d"
  else pyTake (w - 1) value

/-- `Match._menu`: a single non-empty first column is returned verbatim;
otherwise each non-empty, wide-enough column is left-padded to `width - 1`
plus a space, the third column is appended verbatim, and the result is
stripped. -/
def menu (cfg : MatchConfig) (col1 col2 col3 : Str) : Str :=
  if col1 ≠ [] ∧ col2 = [] ∧ col3 = [] then col1
  else
    let m1 := if col1 ≠ [] ∧ minCol1 ≤ cfg.col1 then pad col1 (cfg.col1 - 1) ++ str " " else []
    let m2 := if col2 ≠ [] ∧ minCol2 ≤ cfg.col2 then pad col2 (cfg.col2 - 1) ++ str " " else []
    pyStrip (m1 ++ m2 ++ col3)

/-- The match dict produced by `Match.build` (after `del match['info']`):
`snippet` is `none` when no kind-specific processing set it, and `args` is
`some` exactly for function-kind matches. -/
structure NcmMatch where
  word : Str
  struct : Str
  pkg : Str
  menu : Str
  snippet : Option Str
  args : Option (List NcmMatch)

/-- An all-empty match, used as an `Option.getD` default in witnesses. -/
def emptyMatch : NcmMatch := ⟨[], [], [], [], none, none⟩

/-- The first part of `Match.build`: the dict with the base menu, before the
kind dispatch. -/
def buildBase (cfg : MatchConfig) (word struct pkg info : Str) : NcmMatch :=
  { word := word, struct := struct, pkg := pkg,
    menu := menu cfg (col cfg pkg 1 true) (col cfg struct 2 false) (getTitle info),
    snippet := none, args := none }

/-- `Match._process_df`. -/
def processDf (m : NcmMatch) : NcmMatch :=
  { m with snippet := some (m.word ++ str " %>%$1") }

/-- `Match._process_package`: the menu is recomputed from the literal label
`"package"` and the raw info, with no third column. -/
def processPackage (cfg : MatchConfig) (m : NcmMatch) (info : Str) : NcmMatch :=
  { m with snippet := some (m.word ++ str "::$1"),
           menu := menu cfg (col cfg (str "package") 1 false) info [] }

/-- Model of `re.search('^"(.*)"$', s)`, returning group 1: `$` may also match
just before one final newline; `.*` cannot cross a newline. -/
def quoteGroup (s : Str) : Option Str :=
  let t := if s.getLast? = some '\n' then s.dropLast else s
  if 2 ≤ t.length ∧ t.head? = some '"' ∧ t.getLast? = some '"'
      ∧ ¬((t.drop 1).dropLast.contains '\n' = true)
  then some ((t.drop 1).dropLast) else none

/-- `Match._process_argument`: split the word on `'='` into stripped parts;
the word becomes the first part, the default is the second part only when the
split has exactly two parts. -/
def processArgument (cfg : MatchConfig) (m : NcmMatch) : NcmMatch :=
  let parts := (pySplit '=' m.word).map pyStrip
  let lhs := parts.headD []
  let rhs := if parts.length = 2 then parts.getD 1 [] else []
  let c2 := if rhs ≠ [] then str "= " ++ rhs else []
  let snip :=
    if rhs ≠ [] then
      match quoteGroup rhs with
      | some g => lhs ++ str " = \"$\x7b1:" ++ g ++ str "\x7d\""
      | none => lhs ++ str " = $\x7b1:" ++ rhs ++ str "\x7d"
    else lhs ++ str " = $1"
  { m with word := lhs,
           menu := menu cfg (col cfg (str "argument") 1 false) c2 [],
           snippet := some snip }

/-- `Match._process_variable`: only the menu is recomputed, from the literal
label `"variable"` and the struct field. -/
def processVariable (cfg : MatchConfig) (m : NcmMatch) : NcmMatch :=
  { m with menu := menu cfg (col cfg (str "variable") 1 false) m.struct [] }

/-- The recursive call `self.build(word=arg, struct='argument')` made by
`Match._process_function`, unfolded at `struct = "argument"`, `pkg = ''`,
`info = ''` (so the dispatch picks `_process_argument` and never recurses).
`build_argument_call` below proves it equal to `build` at those arguments. -/
def buildArgEntry (cfg : MatchConfig) (w : Str) : NcmMatch :=
  let m := processArgument cfg (buildBase cfg w (str "argument") [] [])
  if pyContains '$' w then processVariable cfg m else m

/-- `Match._process_function`: construct the `Function` (whose constructor
computes the snippet and can raise), then one argument sub-entry per token
that is neither `'NO_ARGS'` nor `'...'`. -/
def processFunction (cfg : MatchConfig) (m : NcmMatch) (info : Str) : Option NcmMatch :=
  let args := getArgs info
  match makeSnippet m.word args with
  | none => none
  | some snip =>
    some { m with
      args := some ((args.filter
        (fun a => !(a == str "NO_ARGS" || a == str "..."))).map (buildArgEntry cfg)),
      snippet := some snip }

/-- The kind dispatch of `Match.build` (the `if struct == ...` chain). -/
def dispatch (cfg : MatchConfig) (struct info : Str) (m : NcmMatch) : Option NcmMatch :=
  if struct = str "function" then processFunction cfg m info
  else if struct = str "data.frame" ∨ struct = str "tbl_df" then some (processDf m)
  else if struct = str "package" then some (processPackage cfg m info)
  else if struct = str "argument" then some (processArgument cfg m)
  else some m

/-- `Match.build`: base menu, kind dispatch, then the data-frame-variable menu
override whenever the input word contains `'$'`. -/
def build (cfg : MatchConfig) (word struct pkg info : Str) : Option NcmMatch :=
  (dispatch cfg struct info (buildBase cfg word struct pkg info)).map
    (fun m => if pyContains '$' word then processVariable cfg m else m)

/-- `Matches.from_omnils`: split each line on `'\x06'`; lines with at least 5
fields contribute `build` of fields 0, 1, 3, 4; an exception aborts the whole
call (`none`). -/
def fromOmnils (cfg : MatchConfig) : List Str → Option (List NcmMatch)
  | [] => some []
  | l :: ls =>
    let parts := pySplit '\x06' l
    if 5 ≤ parts.length then
      match build cfg (parts.getD 0 []) (parts.getD 1 []) (parts.getD 3 []) (parts.getD 4 []) with
      | none => none
      | some m =>
        match fromOmnils cfg ls with
        | none => none
        | some ms => some (m :: ms)
    else fromOmnils cfg ls

/-- `Matches.from_pkg_desc`: split each line on tab; lines with at least 2
fields contribute `build` of field 0 as word and field 1 as info, with kind
fixed to `"package"`. -/
def fromPkgDesc (cfg : MatchConfig) : List Str → Option (List NcmMatch)
  | [] => some []
  | l :: ls =>
    let parts := pySplit '\t' l
    if 2 ≤ parts.length then
      match build cfg (parts.getD 0 []) (str "package") [] (parts.getD 1 []) with
      | none => none
      | some m =>
        match fromPkgDesc cfg ls with
        | none => none
        | some ms => some (m :: ms)
    else fromPkgDesc cfg ls

/-- A long package description with no control bytes, used as concrete input. -/
def longDesc : Str := str "a long description of this package"

/-- A call of the method `Match.build` viewed together with its object state:
the body (and everything it calls) reads `self.len` and assigns no attribute,
so the state component is the incoming one, unchanged. -/
def buildCall (cfg : MatchConfig) (word struct pkg info : Str) :
    Option NcmMatch × MatchConfig :=
  (build cfg word struct pkg info, cfg)

theorem pySplit_ne_nil (sep : Char) (s : Str) : pySplit sep s ≠ [] := by
  cases s with
  | nil => simp [pySplit]
  | cons c cs =>
    simp only [pySplit]
    split
    · simp
    · split <;> simp

theorem pySplit_length (sep : Char) (s : Str) :
    (pySplit sep s).length = s.count sep + 1 := by
  induction s with
  | nil => simp [pySplit]
  | cons c cs ih =>
    simp only [pySplit]
    by_cases h : c = sep
    · simp [h, List.count_cons, ih]
    · cases hr : pySplit sep cs with
      | nil => exact absurd hr (pySplit_ne_nil sep cs)
      | cons a t =>
        rw [hr] at ih
        simp [h, List.count_cons, Ne.symm h, ← ih]

theorem getArgs_ne_nil (i : Str) (h : i ≠ []) : getArgs i ≠ [] := by
  simp only [getArgs, if_neg h]
  intro hmap
  rcases List.map_eq_nil_iff.mp hmap with hnil
  exact pySplit_ne_nil '\t' _ hnil

theorem makeSnippet_isSome (w a : Str) (args : List Str) :
    (makeSnippet w (a :: args)).isSome := by
  simp only [makeSnippet, List.head?]
  split <;> simp

theorem build_isSome (cfg : MatchConfig) (w s p i : Str)
    (h : ¬(s = str "function" ∧ i = [])) : ∃ m, build cfg w s p i = some m := by
  unfold build dispatch
  by_cases hs : s = str "function"
  · have hi : i ≠ [] := fun hi => h ⟨hs, hi⟩
    rw [if_pos hs]
    cases hg : getArgs i with
    | nil => exact absurd hg (getArgs_ne_nil i hi)
    | cons a t =>
      simp only [processFunction, hg]
      have hms := makeSnippet_isSome (buildBase cfg w s p i).word a t
      cases hm : makeSnippet (buildBase cfg w s p i).word (a :: t) with
      | none => rw [hm] at hms; simp at hms
      | some snip => exact ⟨_, rfl⟩
  · rw [if_neg hs]
    split_ifs <;> exact ⟨_, rfl⟩

theorem build_argument_call (cfg : MatchConfig) (w : Str) :
    build cfg w (str "argument") [] [] = some (buildArgEntry cfg w) := rfl

/-- C1: a function-kind build with empty rawInfo does not degrade to a safe
default snippet: the embedded code aborts (`none`, modelling the Python
`IndexError` from `self.args[0]` on the empty argument list), both for a
direct `build` call and through `from_omnils` on a 5-field line whose last
field is empty. -/
theorem build_function_empty_info_raises :
    build defaultConfig (str "f") (str "function") [] [] = none ∧
    fromOmnils defaultConfig [str "f\x06function\x06x\x06pkg\x06"] = none :=
  ⟨rfl, rfl⟩

/-- C2 counterexample: a line that splits into 5 fields (so the claim promises
exactly one entry for it) produces no entry at all — `from_omnils` aborts with
an exception (`none`) because the line has kind `function` and empty rawInfo. -/
theorem fromOmnils_qualifying_line_no_entry :
    fromOmnils defaultConfig [str "g\x06function\x06a\x06b\x06"] = none ∧
    5 ≤ (pySplit '\x06' (str "g\x06function\x06a\x06b\x06")).length :=
  ⟨rfl, by decide⟩

/-- C3 counterexample: for a function with tokens `a` and `...`, the first
occurrence of `...` yields no argument sub-entry (the code skips every `...`),
so the sub-entry words are `[a]`, not `[a, ...]` as the claim states. -/
theorem function_first_variadic_no_subentry :
    ((build defaultConfig (str "f") (str "function") [] (str "a\t...")).map
        (fun m => (m.args.getD []).map (fun e => e.word))) = some [str "a"] ∧
    some [str "a"] ≠ some [str "a", str "..."] :=
  ⟨rfl, by decide⟩

/-- C4 counterexample: with mandatory tokens `a` and `...`, the first (and
only) occurrence of `...` sits at 1-based position 2 and is skipped, so the
snippet is `f(${1:a})` and not `f(${1:a}, ${2:...})` as the claim requires. -/
theorem makeSnippet_skips_nonfirst_position_variadic :
    makeSnippet (str "f") [str "a", str "..."] = some (str "f($\x7b1:a\x7d)") ∧
    makeSnippet (str "f") [str "a", str "..."]
      ≠ some (str "f($\x7b1:a\x7d, $\x7b2:...\x7d)") :=
  ⟨rfl, by decide⟩

/-- C5 counterexample: a package-kind build whose word contains `$` does not
keep the package-style menu — the final variable override replaces it, so the
menu is `variable   package`, not the menu built from the literal `package`
label and the raw description. -/
theorem package_dollar_word_menu_overridden :
    ((build defaultConfig (str "a$b") (str "package") [] (str "desc")).map
        (fun m => m.menu)) = some (str "variable   package") ∧
    str "variable   package"
      ≠ menu defaultConfig (col defaultConfig (str "package") 1 false) (str "desc") [] :=
  ⟨rfl, by decide⟩

/-- C7 counterexample: a package entry places its rawInfo in column 2
verbatim, so with the default widths (11, 11) and a 34-character description
the menu text (45 characters, no title) exceeds the column budgets. -/
theorem package_menu_exceeds_budget :
    (build defaultConfig (str "pkgA") (str "package") [] longDesc).isSome = true ∧
    ¬(((build defaultConfig (str "pkgA") (str "package") [] longDesc).getD
          emptyMatch).menu.length
        ≤ defaultConfig.col1 + defaultConfig.col2 + (getTitle longDesc).length) :=
  ⟨rfl, by decide⟩

/-- C9: `build` is a pure function of the configuration and its four text
inputs: a call leaves the object state exactly as it was, and a second call
with identical inputs and the post-call state returns an identical entry. -/
theorem build_pure_and_idempotent (cfg : MatchConfig) (w s p i : Str) :
    (buildCall cfg w s p i).2 = cfg ∧
    (buildCall cfg w s p i).1 = (buildCall (buildCall cfg w s p i).2 w s p i).1 :=
  ⟨rfl, rfl⟩

theorem snippet_foldl (l : List (Nat × Str)) (init : Str) :
    l.foldl (fun s p => if skipTok p then s else s ++ phPiece p) init
      = init ++ ((l.filter (fun p => !skipTok p)).map phPiece).flatten := by
  induction l generalizing init with
  | nil => simp
  | cons p t ih =>
    by_cases h : skipTok p = true
    · simp [List.foldl_cons, List.filter_cons, h, ih]
    · simp only [Bool.not_eq_true] at h
      simp [List.foldl_cons, List.filter_cons, h, ih, List.append_assoc]

theorem join_map_piece (pieces : List Str) (hne : pieces ≠ []) :
    (pieces.map (fun x => x ++ str ", ")).flatten
      = List.intercalate (str ", ") pieces ++ str ", " := by
  induction pieces with
  | nil => exact absurd rfl hne
  | cons a t ih =>
    cases t with
    | nil => simp [List.intercalate]
    | cons b u =>
      rw [List.map_cons, List.flatten_cons, ih (by simp)]
      simp [List.intercalate, List.intersperse_cons_cons, List.append_assoc]

theorem pyDropRight_append_two (x : Str) : pyDropRight 2 (x ++ str ", ") = x := by
  show (x ++ str ", ").take ((x ++ str ", ").length - 2) = x
  have h : (x ++ str ", ").length - 2 = x.length := by simp [str]
  rw [h, List.take_left]

/-- C4 (amended): among the mandatory tokens (those containing no `=`), a
token at 0-based position `i` contributes the placeholder `${i+1:token}`
unless `i > 0` and the token is a substring of `...` (one of the strings
empty, `.`, `..`, `...` — the code tests `arg in ('...')`, a substring test),
in which case it is skipped; the kept placeholders are joined with `, `
inside the parentheses, and with no mandatory token the snippet is
`word($1)`. -/
theorem makeSnippet_mandatory_placeholders (word a0 : Str) (args : List Str)
    (h0 : args.head? = some a0) (hNA : a0 ≠ str "NO_ARGS") :
    makeSnippet word args = some (
      if args.filter (fun a => !pyContains '=' a) = [] then word ++ str "($1)"
      else word ++ str "(" ++ List.intercalate (str ", ")
        (((args.filter (fun a => !pyContains '=' a)).enum.filter
            (fun p => !skipTok p)).map phCore) ++ str ")") := by
  simp only [makeSnippet, h0]
  rw [if_neg hNA, snippet_foldl]
  cases hmand : args.filter (fun a => !pyContains '=' a) with
  | nil =>
    simp [hmand]
    rfl
  | cons b t =>
    have hkept_ne : ((b :: t).enum.filter (fun p => !skipTok p)) ≠ [] := by
      have h0b : skipTok (0, b) = false := by simp [skipTok]
      simp [List.enum_cons, List.filter_cons, h0b]
    rw [if_pos (by simp), if_neg (by simp)]
    have hmapp : ((b :: t).enum.filter (fun p => !skipTok p)).map phPiece
        = (((b :: t).enum.filter (fun p => !skipTok p)).map phCore).map
            (fun x => x ++ str ", ") := by
      rw [List.map_map]; rfl
    rw [hmapp, join_map_piece _ (by simp [hkept_ne]), ← List.append_assoc,
      pyDropRight_append_two]

/-- C4 witness: argument tokens `a` (mandatory) and `b=1` (optional). -/
theorem makeSnippet_mandatory_placeholders_witness :
    makeSnippet (str "f") [str "a", str "b=1"] = some (str "f($\x7b1:a\x7d)") :=
  makeSnippet_mandatory_placeholders (str "f") (str "a") [str "a", str "b=1"]
    rfl (by decide)

/-- C5 (amended): for every package-kind build whose word does not contain
`$`, the snippet is the word followed by `::$1`, and the menu is recomputed
from the literal label `package` (column 1) and the rawInfo verbatim
(column 2), with no title column — the base-menu and title-extraction paths
are discarded. -/
theorem package_build_spec (cfg : MatchConfig) (w p i : Str)
    (hw : pyContains '$' w = false) :
    build cfg w (str "package") p i
      = some { word := w, struct := str "package", pkg := p,
               menu := menu cfg (col cfg (str "package") 1 false) i [],
               snippet := some (w ++ str "::$1"), args := none } := by
  unfold build dispatch
  rw [if_neg (by decide), if_neg (by decide), if_pos rfl]
  simp [processPackage, buildBase, hw]

/-- C5 witness: the spec's own example, `dplyr` with description
`Data manipulation`. -/
theorem package_build_spec_witness :
    build defaultConfig (str "dplyr") (str "package") [] (str "Data manipulation")
      = some { word := str "dplyr", struct := str "package", pkg := [],
               menu := menu defaultConfig (col defaultConfig (str "package") 1 false)
                 (str "Data manipulation") [],
               snippet := some (str "dplyr" ++ str "::$1"), args := none } :=
  package_build_spec defaultConfig (str "dplyr") [] (str "Data manipulation") rfl

theorem dispatch_struct (cfg : MatchConfig) (s i : Str) (b m : NcmMatch)
    (hd : dispatch cfg s i b = some m) : m.struct = b.struct := by
  unfold dispatch at hd
  split_ifs at hd with h1 h2 h3 h4
  · simp only [processFunction] at hd
    cases hm : makeSnippet b.word (getArgs i) with
    | none => rw [hm] at hd; cases hd
    | some snip => rw [hm] at hd; cases hd; rfl
  · cases hd; rfl
  · cases hd; rfl
  · cases hd; rfl
  · cases hd; rfl

/-- C6: whenever the input word contains `$`, the final entry equals the
kind-dispatch result with only its menu replaced, the replacement being
column 1 = the literal label `variable` and column 2 = the input kind label;
word, kind, package, snippet and argument sub-entries are exactly those the
kind dispatch produced. -/
theorem dollar_override_menu (cfg : MatchConfig) (w s p i : Str)
    (h : pyContains '$' w = true) :
    build cfg w s p i = (dispatch cfg s i (buildBase cfg w s p i)).map
      (fun m => { m with menu := menu cfg (col cfg (str "variable") 1 false) s [] }) := by
  unfold build
  cases hd : dispatch cfg s i (buildBase cfg w s p i) with
  | none => rfl
  | some m =>
    have hs : m.struct = s := by
      simpa [buildBase] using dispatch_struct cfg s i (buildBase cfg w s p i) m hd
    simp [h, processVariable, hs]

/-- C6 witness: a function-kind word containing `$` still gets the
variable-style menu while keeping the function-derived snippet. -/
theorem dollar_override_menu_witness :
    build defaultConfig (str "df$col") (str "function") [] (str "NO_ARGS")
      = (dispatch defaultConfig (str "function") (str "NO_ARGS")
          (buildBase defaultConfig (str "df$col") (str "function") [] (str "NO_ARGS"))).map
        (fun m =>
          { m with
            menu := menu defaultConfig (col defaultConfig (str "variable") 1 false)
              (str "function") [] }) :=
  dollar_override_menu defaultConfig (str "df$col") (str "function") [] (str "NO_ARGS") rfl

/-- C2 (amended): provided no line with at least 5 fields carries kind
`function` together with an empty field 4 (such a line raises instead, see
C1), `from_omnils` returns exactly one entry per qualifying line, in input
order, each equal to `build` of fields 0, 1, 3, 4 of its line (field 2
unused); lines with fewer than 5 fields contribute nothing, and empty input
yields the empty sequence. -/
theorem fromOmnils_entries (cfg : MatchConfig) (lines : List Str)
    (H : ∀ l ∈ lines, 5 ≤ (pySplit '\x06' l).length →
        ¬((pySplit '\x06' l).getD 1 [] = str "function"
          ∧ (pySplit '\x06' l).getD 4 [] = [])) :
    ∃ ms, fromOmnils cfg lines = some ms ∧
      List.Forall₂
        (fun l m => build cfg ((pySplit '\x06' l).getD 0 []) ((pySplit '\x06' l).getD 1 [])
            ((pySplit '\x06' l).getD 3 []) ((pySplit '\x06' l).getD 4 []) = some m)
        (lines.filter (fun l => decide (5 ≤ (pySplit '\x06' l).length))) ms := by
  induction lines with
  | nil => exact ⟨[], rfl, List.Forall₂.nil⟩
  | cons l ls ih =>
    obtain ⟨ms, hms, hF⟩ := ih (fun x hx => H x (List.mem_cons_of_mem l hx))
    by_cases hq : 5 ≤ (pySplit '\x06' l).length
    · obtain ⟨m, hm⟩ := build_isSome cfg _ _ _ _ (H l (List.mem_cons_self l ls) hq)
      refine ⟨m :: ms, ?_, ?_⟩
      · simp only [fromOmnils]
        rw [if_pos hq, hm, hms]
      · simp only [List.filter_cons]
        rw [if_pos (by simpa using hq)]
        exact List.Forall₂.cons hm hF
    · refine ⟨ms, ?_, ?_⟩
      · simp only [fromOmnils]
        rw [if_neg hq]
        exact hms
      · simp only [List.filter_cons]
        rw [if_neg (by simpa using hq)]
        exact hF

/-- C2 witness: one short line (1 field) and one qualifying 5-field package
line. -/
theorem fromOmnils_entries_witness :
    ∃ ms, fromOmnils defaultConfig
        [str "ab", str "dplyr\x06package\x06x\x06base\x06Data manipulation"] = some ms ∧
      List.Forall₂
        (fun l m => build defaultConfig ((pySplit '\x06' l).getD 0 [])
            ((pySplit '\x06' l).getD 1 []) ((pySplit '\x06' l).getD 3 [])
            ((pySplit '\x06' l).getD 4 []) = some m)
        (([str "ab", str "dplyr\x06package\x06x\x06base\x06Data manipulation"]).filter
          (fun l => decide (5 ≤ (pySplit '\x06' l).length))) ms :=
  fromOmnils_entries defaultConfig
    [str "ab", str "dplyr\x06package\x06x\x06base\x06Data manipulation"] (by decide)

/-- C3 (amended): for every function-kind build, the argument sub-entry list
has exactly one entry, in order, per argument token, skipping `NO_ARGS`
tokens and every occurrence of `...` (including the first); each sub-entry is
the recursive `build` with kind `argument`, empty package and rawInfo. -/
theorem function_arg_subentries (cfg : MatchConfig) (w p i : Str) (m : NcmMatch)
    (h : build cfg w (str "function") p i = some m) :
    ∃ entries, m.args = some entries ∧
      List.Forall₂ (fun a e => build cfg a (str "argument") [] [] = some e)
        ((getArgs i).filter (fun a => !(a == str "NO_ARGS" || a == str "..."))) entries := by
  unfold build dispatch at h
  rw [if_pos rfl] at h
  simp only [processFunction] at h
  cases hm : makeSnippet (buildBase cfg w (str "function") p i).word (getArgs i) with
  | none => rw [hm] at h; cases h
  | some snip =>
    rw [hm] at h
    simp only [Option.map_some', Option.some.injEq] at h
    refine ⟨((getArgs i).filter
        (fun a => !(a == str "NO_ARGS" || a == str "..."))).map (buildArgEntry cfg),
      ?_, ?_⟩
    · rw [← h]
      split <;> rfl
    · rw [List.forall₂_map_right_iff]
      rw [List.forall₂_same]
      exact fun a _ => build_argument_call cfg a

/-- C3 witness: a function with a single ordinary argument token. -/
theorem function_arg_subentries_witness :
    ∃ entries,
      ((build defaultConfig (str "f") (str "function") [] (str "a")).getD emptyMatch).args
        = some entries ∧
      List.Forall₂ (fun a e => build defaultConfig a (str "argument") [] [] = some e)
        ((getArgs (str "a")).filter (fun a => !(a == str "NO_ARGS" || a == str "...")))
        entries :=
  function_arg_subentries defaultConfig (str "f") [] (str "a") _ rfl

theorem headD_map_pyStrip (l : List Str) (hl : l ≠ []) :
    (l.map pyStrip).headD [] = pyStrip (l.headD []) := by
  cases l with
  | nil => exact absurd rfl hl
  | cons a t => rfl

theorem processArgument_no_default (cfg : MatchConfig) (m : NcmMatch)
    (h : (pySplit '=' m.word).length ≠ 2) :
    processArgument cfg m = { m with
      word := ((pySplit '=' m.word).map pyStrip).headD [],
      menu := menu cfg (col cfg (str "argument") 1 false) [] [],
      snippet := some (((pySplit '=' m.word).map pyStrip).headD [] ++ str " = $1") } := by
  simp [processArgument, h]

/-- C10 (amended): for every argument-kind build whose word contains at least
two `=` and no `$`, the default is discarded entirely: the entry's word is
the (stripped) text before the first `=`, the recomputed menu has an empty
second column (no `= default` annotation), and the snippet is the parameter
name followed by ` = $1`. -/
theorem argument_multi_eq_discards_default (cfg : MatchConfig) (w p i : Str)
    (hw : pyContains '$' w = false) (h2 : 2 ≤ w.count '=') :
    ∃ m, build cfg w (str "argument") p i = some m ∧
      m.word = pyStrip ((pySplit '=' w).headD []) ∧
      m.menu = menu cfg (col cfg (str "argument") 1 false) [] [] ∧
      m.snippet = some (pyStrip ((pySplit '=' w).headD []) ++ str " = $1") := by
  have hb : build cfg w (str "argument") p i
      = some (processArgument cfg (buildBase cfg w (str "argument") p i)) := by
    unfold build dispatch
    rw [if_neg (by decide), if_neg (by decide), if_neg (by decide), if_pos rfl]
    simp [hw]
  have hlen : (pySplit '=' (buildBase cfg w (str "argument") p i).word).length ≠ 2 := by
    show (pySplit '=' w).length ≠ 2
    rw [pySplit_length]
    omega
  rw [processArgument_no_default cfg _ hlen] at hb
  refine ⟨_, hb, ?_, ?_, ?_⟩
  · show ((pySplit '=' w).map pyStrip).headD [] = pyStrip ((pySplit '=' w).headD [])
    exact headD_map_pyStrip _ (pySplit_ne_nil '=' w)
  · rfl
  · show some (((pySplit '=' w).map pyStrip).headD [] ++ str " = $1")
      = some (pyStrip ((pySplit '=' w).headD []) ++ str " = $1")
    rw [headD_map_pyStrip _ (pySplit_ne_nil '=' w)]

/-- C10 witness: argument word `n=1=2`. -/
theorem argument_multi_eq_discards_default_witness :
    ∃ m, build defaultConfig (str "n=1=2") (str "argument") [] [] = some m ∧
      m.word = pyStrip ((pySplit '=' (str "n=1=2")).headD []) ∧
      m.menu = menu defaultConfig (col defaultConfig (str "argument") 1 false) [] [] ∧
      m.snippet = some (pyStrip ((pySplit '=' (str "n=1=2")).headD []) ++ str " = $1") :=
  argument_multi_eq_discards_default defaultConfig (str "n=1=2") [] [] rfl (by decide)

/-- C10 counterexample: an argument-kind build whose word contains `$` (and
two `=`) does not keep the argument-style menu with empty second column — the
final variable override replaces it with `variable   argument`. -/
theorem argument_dollar_multi_eq_menu_overridden :
    ((build defaultConfig (str "a$x=1=2") (str "argument") [] []).map
        (fun m => m.menu)) = some (str "variable   argument") ∧
    str "variable   argument"
      ≠ menu defaultConfig (col defaultConfig (str "argument") 1 false) [] [] :=
  ⟨rfl, by decide⟩

theorem dropWhile_length_le (p : Char → Bool) (l : Str) :
    (l.dropWhile p).length ≤ l.length :=
  (List.dropWhile_suffix p).sublist.length_le

theorem pyStrip_length_le (s : Str) : (pyStrip s).length ≤ s.length := by
  unfold pyStrip
  rw [List.length_reverse]
  calc ((s.dropWhile pyWs).reverse.dropWhile pyWs).length
      ≤ (s.dropWhile pyWs).reverse.length := dropWhile_length_le _ _
    _ = (s.dropWhile pyWs).length := List.length_reverse _
    _ ≤ s.length := dropWhile_length_le _ _

theorem pad_length (s : Str) (w : Nat) :
    (pad s w).length = s.length + (w - s.length) := by
  simp [pad]

theorem col1_length_le (cfg : MatchConfig) (v : Str) (b : Bool) :
    (col cfg v 1 b).length ≤ cfg.col1 - 1 := by
  show (if cfg.col1 < minCol1 then ([] : Str)
      else if b then '{' :: (v.take (cfg.col1 - 3) ++ ['}'])
      else v.take (cfg.col1 - 1)).length ≤ cfg.col1 - 1
  split_ifs with h hb
  · simp
  · have hmin : (v.take (cfg.col1 - 3)).length ≤ cfg.col1 - 3 := by
      simp only [List.length_take]
      exact Nat.min_le_left _ _
    have h7 : (7 : Nat) ≤ cfg.col1 := not_lt.mp h
    simp only [List.length_cons, List.length_append, List.length_cons,
      List.length_nil]
    omega
  · simp only [List.length_take]
    exact Nat.min_le_left _ _

theorem col2_length_le (cfg : MatchConfig) (v : Str) (b : Bool) :
    (col cfg v 2 b).length ≤ cfg.col2 - 1 := by
  show (if cfg.col2 < minCol2 then ([] : Str)
      else if b then '{' :: (v.take (cfg.col2 - 3) ++ ['}'])
      else v.take (cfg.col2 - 1)).length ≤ cfg.col2 - 1
  split_ifs with h hb
  · simp
  · have hmin : (v.take (cfg.col2 - 3)).length ≤ cfg.col2 - 3 := by
      simp only [List.length_take]
      exact Nat.min_le_left _ _
    have h7 : (7 : Nat) ≤ cfg.col2 := not_lt.mp h
    simp only [List.length_cons, List.length_append, List.length_cons,
      List.length_nil]
    omega
  · simp only [List.length_take]
    exact Nat.min_le_left _ _

theorem menu_length_le (cfg : MatchConfig) (c1 c2 c3 : Str)
    (h1 : c1.length ≤ cfg.col1 - 1) (h2 : c2.length ≤ cfg.col2 - 1) :
    (menu cfg c1 c2 c3).length ≤ cfg.col1 + cfg.col2 + c3.length := by
  simp only [menu]
  split_ifs with h hA hB hB2
  · omega
  · refine le_trans (pyStrip_length_le _) ?_
    have h7 : (7 : Nat) ≤ cfg.col1 := hA.2
    have h7' : (7 : Nat) ≤ cfg.col2 := hB.2
    simp only [List.length_append, pad_length, show (str " ").length = 1 from rfl]
    omega
  · refine le_trans (pyStrip_length_le _) ?_
    have h7 : (7 : Nat) ≤ cfg.col1 := hA.2
    simp only [List.length_append, pad_length, List.length_nil,
      show (str " ").length = 1 from rfl]
    omega
  · refine le_trans (pyStrip_length_le _) ?_
    have h7' : (7 : Nat) ≤ cfg.col2 := hB2.2
    simp only [List.length_append, pad_length, List.length_nil,
      show (str " ").length = 1 from rfl]
    omega
  · refine le_trans (pyStrip_length_le _) ?_
    simp only [List.length_append, List.length_nil]
    omega

theorem build_menu_base (cfg : MatchConfig) (w s p i : Str) (m : NcmMatch)
    (hs1 : s ≠ str "package") (hs2 : s ≠ str "argument")
    (hw : pyContains '$' w = false)
    (h : build cfg w s p i = some m) :
    m.menu = menu cfg (col cfg p 1 true) (col cfg s 2 false) (getTitle i) := by
  unfold build dispatch at h
  simp only [hw, Bool.false_eq_true, if_false] at h
  by_cases h1 : s = str "function"
  · rw [if_pos h1] at h
    simp only [processFunction] at h
    cases hm : makeSnippet (buildBase cfg w s p i).word (getArgs i) with
    | none => rw [hm] at h; cases h
    | some snip =>
      rw [hm] at h
      simp only [Option.map_some', Option.some.injEq] at h
      rw [← h]; rfl
  · rw [if_neg h1] at h
    by_cases h2 : s = str "data.frame" ∨ s = str "tbl_df"
    · rw [if_pos h2] at h
      simp only [Option.map_some', Option.some.injEq] at h
      rw [← h]; rfl
    · rw [if_neg h2, if_neg hs1, if_neg hs2] at h
      simp only [Option.map_some', Option.some.injEq] at h
      rw [← h]; rfl

/-- C7 (amended): for every entry built with a kind other than `package` and
`argument` and a word not containing `$` — i.e. every entry whose menu is the
base-path menu — the menu length is bounded by `col1Len + col2Len` plus the
length of the extracted title; package-, argument- and variable-override
menus place raw text in their second column and can exceed that budget (see
the counterexample).  Column omission is a pure function of the configuration
and the fields throughout. -/
theorem menu_within_budget (cfg : MatchConfig) (w s p i : Str) (m : NcmMatch)
    (hs1 : s ≠ str "package") (hs2 : s ≠ str "argument")
    (hw : pyContains '$' w = false)
    (h : build cfg w s p i = some m) :
    m.menu.length ≤ cfg.col1 + cfg.col2 + (getTitle i).length := by
  rw [build_menu_base cfg w s p i m hs1 hs2 hw h]
  exact menu_length_le cfg _ _ _ (col1_length_le cfg p true) (col2_length_le cfg s false)

/-- C7 witness: an unknown-kind entry with a package column, default widths. -/
theorem menu_within_budget_witness :
    (((build defaultConfig (str "x") (str "foo") (str "pkg") []).getD
        emptyMatch).menu).length
      ≤ defaultConfig.col1 + defaultConfig.col2 + (getTitle []).length :=
  menu_within_budget defaultConfig (str "x") (str "foo") (str "pkg") [] _
    (by decide) (by decide) rfl rfl

theorem col1_below_min_empty (cfg : MatchConfig) (h : cfg.col1 < minCol1)
    (v : Str) (b : Bool) : col cfg v 1 b = [] := by
  show (if cfg.col1 < minCol1 then ([] : Str)
      else if b then '{' :: (v.take (cfg.col1 - 3) ++ ['}'])
      else v.take (cfg.col1 - 1)) = []
  rw [if_pos h]

theorem buildBase_pkg_update (cfg : MatchConfig) (h : cfg.col1 < minCol1)
    (w s p p' i : Str) :
    buildBase cfg w s p i = { buildBase cfg w s p' i with pkg := p } := by
  simp [buildBase, col1_below_min_empty cfg h]

theorem dispatch_pkg_update (cfg : MatchConfig) (s i : Str) (m : NcmMatch) (p : Str) :
    dispatch cfg s i { m with pkg := p }
      = (dispatch cfg s i m).map (fun x => { x with pkg := p }) := by
  unfold dispatch
  split_ifs with h1 h2 h3 h4
  · show processFunction cfg { m with pkg := p } i
      = (processFunction cfg m i).map (fun x => { x with pkg := p })
    simp only [processFunction]
    cases hm : makeSnippet m.word (getArgs i) with
    | none => rfl
    | some snip => rfl
  · rfl
  · rfl
  · rfl
  · rfl

/-- C8: if the configured first-column width is below the fixed minimum of 7,
every first-column computation yields the empty string (so neither a
bracketed package name nor any literal column-1 label can appear), and the
menu of every built entry is independent of the package field. -/
theorem col1_below_min_suppressed (cfg : MatchConfig) (h : cfg.col1 < minCol1)
    (v : Str) (b : Bool) (w s p p' i : Str) :
    col cfg v 1 b = [] ∧
    (build cfg w s p i).map (fun m => m.menu)
      = (build cfg w s p' i).map (fun m => m.menu) := by
  refine ⟨col1_below_min_empty cfg h v b, ?_⟩
  unfold build
  rw [buildBase_pkg_update cfg h w s p p' i, dispatch_pkg_update]
  cases hd : dispatch cfg s i (buildBase cfg w s p' i) with
  | none => rfl
  | some x =>
    simp only [Option.map_some']
    split_ifs with hx
    · rfl
    · rfl

/-- C8 witness: `col1Len = 5`, a package entry with and without a package
field; the first-column text is empty and the menus agree. -/
theorem col1_below_min_suppressed_witness :
    col (setup defaultConfig 5 11) (str "dplyr") 1 true = [] ∧
    (build (setup defaultConfig 5 11) (str "x") (str "package") (str "dplyr")
        (str "desc")).map (fun m => m.menu)
      = (build (setup defaultConfig 5 11) (str "x") (str "package") []
        (str "desc")).map (fun m => m.menu) :=
  col1_below_min_suppressed (setup defaultConfig 5 11) (by decide) (str "dplyr") true
    (str "x") (str "package") (str "dplyr") [] (str "desc")
